import Mathlib

/-!
The decision and reconciliation core of k8s-usage-scaler.

A shallow embedding of `cmd/kubefunctions.go` and `cmd/app.go`.

* Go `float64` is the type `F64`: a rational, `+Inf`, `-Inf` or `NaN`.  The result of
  every arithmetic operation on finite operands is passed through a rounding function
  `rnd : ℚ → F64`, a parameter of the model.  Theorems quantify over every `rnd`, so they
  hold for IEEE-754 round-to-nearest in particular, which is `F64.roundNearestEven`;
  `F64.exact` is the rounding used on inputs whose intermediate values binary64 represents
  exactly (small integers).
  Signed zeros are not distinguished: every divisor the program builds is the conversion
  of an integer, and the accumulators start at `+0`.
* A Go `map[string]float64` is the list of its entries in the order in which the `range`
  loop of the call visits them; the order is chosen by the runtime at each loop.
* `int32`, `int64` values are `Int`s; conversions that can wrap are written with `%`.
-/

namespace K8sUsageScaler

/-! ## float64 -/

/-- Values of Go's `float64`. -/
inductive F64 where
  | nan : F64
  | ninf : F64
  | pinf : F64
  | fin (q : ℚ) : F64
  deriving DecidableEq, Repr

namespace F64

/-- Rounding that leaves every rational as it is. -/
def exact (q : ℚ) : F64 := fin q

/-- Go `a + b`. -/
def add (rnd : ℚ → F64) : F64 → F64 → F64
  | fin a, fin b => rnd (a + b)
  | nan, _ => nan
  | _, nan => nan
  | pinf, ninf => nan
  | ninf, pinf => nan
  | pinf, _ => pinf
  | ninf, _ => ninf
  | fin _, pinf => pinf
  | fin _, ninf => ninf

/-- Go `a / b`; a zero divisor is `+0`. -/
def div (rnd : ℚ → F64) : F64 → F64 → F64
  | fin a, fin b =>
    if b = 0 then (if a = 0 then nan else if 0 < a then pinf else ninf)
    else rnd (a / b)
  | nan, _ => nan
  | _, nan => nan
  | fin _, pinf => fin 0
  | fin _, ninf => fin 0
  | pinf, fin b => if 0 ≤ b then pinf else ninf
  | ninf, fin b => if 0 ≤ b then ninf else pinf
  | pinf, pinf => nan
  | pinf, ninf => nan
  | ninf, pinf => nan
  | ninf, ninf => nan

/-- Go `a * b`. -/
def mul (rnd : ℚ → F64) : F64 → F64 → F64
  | fin a, fin b => rnd (a * b)
  | nan, _ => nan
  | _, nan => nan
  | pinf, fin b => if b = 0 then nan else if 0 < b then pinf else ninf
  | ninf, fin b => if b = 0 then nan else if 0 < b then ninf else pinf
  | fin a, pinf => if a = 0 then nan else if 0 < a then pinf else ninf
  | fin a, ninf => if a = 0 then nan else if 0 < a then ninf else pinf
  | pinf, pinf => pinf
  | ninf, ninf => pinf
  | pinf, ninf => ninf
  | ninf, pinf => ninf

/-- Go `a <= b`: false as soon as one side is NaN. -/
def le : F64 → F64 → Bool
  | fin a, fin b => decide (a ≤ b)
  | nan, _ => false
  | _, nan => false
  | ninf, _ => true
  | _, pinf => true
  | pinf, _ => false
  | fin _, ninf => false

/-- Go `a >= b`. -/
def ge (a b : F64) : Bool := le b a

/-- Go `a < b`: false as soon as one side is NaN. -/
def lt : F64 → F64 → Bool
  | fin a, fin b => decide (a < b)
  | nan, _ => false
  | _, nan => false
  | _, ninf => false
  | pinf, _ => false
  | ninf, _ => true
  | fin _, pinf => true

/-- Go `a > b`. -/
def gt (a b : F64) : Bool := lt b a

/-- Go `float64(z)` for an integer `z`: exact up to magnitude `2^53`, rounded beyond. -/
def ofInt (rnd : ℚ → F64) (z : Int) : F64 :=
  if z.natAbs ≤ 2 ^ 53 then fin z else rnd z

/-- Whether the value is finite (neither NaN nor an infinity). -/
def isFinite : F64 → Bool
  | fin _ => true
  | _ => false

/-- The rational `2^e`. -/
def pow2 (e : Int) : ℚ :=
  if 0 ≤ e then ((2 ^ e.toNat : Nat) : ℚ) else 1 / ((2 ^ (-e).toNat : Nat) : ℚ)

/-- How many times `n` can be halved before it is below 2 (within `fuel` steps). -/
def bitsAbove : Nat → Nat → Nat
  | 0, _ => 0
  | fuel + 1, n => if n < 2 then 0 else bitsAbove fuel (n / 2) + 1

/-- The position of the highest set bit of `n`: `⌊log₂ n⌋` for `n > 0`. -/
def log2 (n : Nat) : Nat := bitsAbove n n

/-- For a rational `a > 0`, the integer `e` with `2^e ≤ a < 2^(e+1)`. -/
def floorLog2 (a : ℚ) : Int :=
  let e0 : Int := (log2 a.num.natAbs : Int) - (log2 a.den : Int)
  if pow2 e0 ≤ a then e0 else e0 - 1

/-- IEEE-754 binary64 rounding to nearest, ties to even: the rounding of Go's `float64`
arithmetic and conversions.  The significand has 53 bits, the least exponent is `-1022`
(below it the spacing stays `2^-1074`), and a result of magnitude `2^1024` or more is an
infinity. -/
def roundNearestEven (q : ℚ) : F64 :=
  if q = 0 then fin 0
  else
    let a := |q|
    let e := max (floorLog2 a) (-1022)
    let ulp := pow2 (e - 52)
    let n := a / ulp
    let f : Int := ⌊n⌋
    let r := n - f
    let m : Int :=
      if r < 1 / 2 then f else if 1 / 2 < r then f + 1 else if f % 2 = 0 then f else f + 1
    let v := (m : ℚ) * ulp
    if pow2 1024 ≤ v then (if 0 < q then pinf else ninf)
    else fin (if 0 < q then v else -v)

end F64

/-! ## `makeScalingDecision` -/

/-- Go `strings.HasSuffix`. -/
def HasSuffix (s suffix : String) : Bool := suffix.data.isSuffixOf s.data

/-- A `map[string]float64` as the entries its `range` loop visits, in that order. -/
abbrev Metrics := List (String × F64)

/-- The three accumulators of the aggregation loop of `makeScalingDecision`. -/
structure Totals where
  totalCPUPercentage : F64
  totalMemoryPercentage : F64
  podCount : Nat
  deriving DecidableEq, Repr

/-- One iteration of the `for metricName, value := range metrics` loop. -/
def accumulate (rnd : ℚ → F64) (t : Totals) (e : String × F64) : Totals :=
  if HasSuffix e.1 "_cpu" then
    { t with totalCPUPercentage := F64.add rnd t.totalCPUPercentage e.2,
             podCount := t.podCount + 1 }
  else if HasSuffix e.1 "_memory" then
    { t with totalMemoryPercentage := F64.add rnd t.totalMemoryPercentage e.2 }
  else t

/-- The whole aggregation loop, from the zero accumulators. -/
def aggregate (rnd : ℚ → F64) (metrics : Metrics) : Totals :=
  metrics.foldl (accumulate rnd) ⟨F64.fin 0, F64.fin 0, 0⟩

/-- Go `makeScalingDecision`.  The returned integer is the replica target, `0` standing
for "no scaling".  `float64(maxReplicas)`, `float64(podCount+1)`, `math.Min`/`math.Max`
and the conversion back to `int` are exact on these integers, so the two results are
written with the integer `min` and `max`. -/
def makeScalingDecision (rnd : ℚ → F64) (metrics : Metrics) (minReplicas maxReplicas : Int)
    (scaleUpThreshold scaleDownThreshold : Int) : Except String Int :=
  if metrics.length = 0 then
    .error "no metrics data available"
  else
    let t := aggregate rnd metrics
    let avgCPUPercentage := F64.div rnd t.totalCPUPercentage (F64.fin t.podCount)
    let avgMemoryPercentage := F64.div rnd t.totalMemoryPercentage (F64.fin t.podCount)
    if F64.ge avgCPUPercentage (F64.ofInt rnd scaleUpThreshold)
        || F64.ge avgMemoryPercentage (F64.ofInt rnd scaleUpThreshold) then
      .ok (min maxReplicas ((t.podCount : Int) + 1))
    else if F64.le avgCPUPercentage (F64.ofInt rnd scaleDownThreshold)
        && F64.le avgMemoryPercentage (F64.ofInt rnd scaleDownThreshold) then
      .ok (max minReplicas ((t.podCount : Int) - 1))
    else
      .ok 0

/-! ### The aggregate in the words of the specification -/

/-- Whether the entry's key ends in `_cpu`. -/
def isCPU (e : String × F64) : Bool := HasSuffix e.1 "_cpu"

/-- Whether the entry's key ends in `_memory`. -/
def isMemory (e : String × F64) : Bool := HasSuffix e.1 "_memory"

/-- The float64 sum of a sequence of values, added left to right from `0`. -/
def sumOf (rnd : ℚ → F64) (xs : List F64) : F64 := xs.foldl (F64.add rnd) (F64.fin 0)

/-- Specification `sampleCount`: the number of keys ending in `_cpu`. -/
def sampleCount (metrics : Metrics) : Nat := (metrics.filter isCPU).length

/-- Specification `meanCPURatio`: the sum of the `_cpu` values over `sampleCount`. -/
def meanCPU (rnd : ℚ → F64) (metrics : Metrics) : F64 :=
  F64.div rnd (sumOf rnd ((metrics.filter isCPU).map Prod.snd)) (F64.fin (sampleCount metrics))

/-- Specification `meanMemoryRatio`: the sum of the `_memory` values over `sampleCount`. -/
def meanMemory (rnd : ℚ → F64) (metrics : Metrics) : F64 :=
  F64.div rnd (sumOf rnd ((metrics.filter isMemory).map Prod.snd))
    (F64.fin (sampleCount metrics))

/-- The scale-up condition of the decision rule. -/
def scaleUpCondition (rnd : ℚ → F64) (metrics : Metrics) (scaleUpThreshold : Int) : Bool :=
  F64.ge (meanCPU rnd metrics) (F64.ofInt rnd scaleUpThreshold)
    || F64.ge (meanMemory rnd metrics) (F64.ofInt rnd scaleUpThreshold)

/-- The scale-down condition of the decision rule. -/
def scaleDownCondition (rnd : ℚ → F64) (metrics : Metrics) (scaleDownThreshold : Int) : Bool :=
  F64.le (meanCPU rnd metrics) (F64.ofInt rnd scaleDownThreshold)
    && F64.le (meanMemory rnd metrics) (F64.ofInt rnd scaleDownThreshold)

instance instDecidableEqExcept {ε α : Type} [DecidableEq ε] [DecidableEq α] :
    DecidableEq (Except ε α)
  | .ok a, .ok b => if h : a = b then isTrue (h ▸ rfl) else isFalse (fun h2 => h (by cases h2; rfl))
  | .error a, .error b =>
    if h : a = b then isTrue (h ▸ rfl) else isFalse (fun h2 => h (by cases h2; rfl))
  | .ok _, .error _ => isFalse (fun h => by cases h)
  | .error _, .ok _ => isFalse (fun h => by cases h)

/-! ## `collectMetrics` -/

/-- Go `int64` arithmetic: the result wrapped into `[-2^63, 2^63)`. -/
def wrapInt64 (z : Int) : Int := (z + 2 ^ 63) % 2 ^ 64 - 2 ^ 63

/-- Go `int32(z)`: the value wrapped into `[-2^31, 2^31)`. -/
def toInt32 (z : Int) : Int := (z + 2 ^ 31) % 2 ^ 32 - 2 ^ 31

/-- The usage of one container as `collectMetrics` reads it:
`container.Usage.Cpu().MilliValue()` and `container.Usage.Memory().Value()`. -/
structure ContainerUsage where
  cpu : Int
  memory : Int
  deriving DecidableEq, Repr

/-- The limits of one container as `collectMetrics` reads them:
`Resources.Limits.Cpu().MilliValue()` and `Resources.Limits.Memory().Value()`.
A limit that is not declared reads as `0`. -/
structure Container where
  cpuLimit : Int
  memoryLimit : Int
  deriving DecidableEq, Repr

/-- The part of `corev1.Pod` the program reads. -/
structure Pod where
  Name : String
  Containers : List Container
  deriving DecidableEq, Repr

/-- The metrics service: `PodMetricses(namespace).Get(ctx, podName, ...)` answers with the
containers' usage or with an error. -/
structure MetricsClient where
  get : String → Except String (List ContainerUsage)

/-- How a call ends when it does not return its value: an `error` result, or a run-time
panic. -/
inductive Failure where
  | error (msg : String)
  | panic (msg : String)
  deriving DecidableEq, Repr

/-- Go `podMetrics[key] = value`: the entry of that key is overwritten, or a new entry is
added. -/
def mapSet : Metrics → String → F64 → Metrics
  | [], key, value => [(key, value)]
  | e :: rest, key, value =>
    if e.1 = key then (key, value) :: rest else e :: mapSet rest key value

/-- Go `podMetrics[key]`, with `none` for an absent key. -/
def mapGet : Metrics → String → Option F64
  | [], _ => none
  | e :: rest, key => if e.1 = key then some e.2 else mapGet rest key

/-- The inner loop `for _, container := range podMetricsList.Containers`: the `int64`
totals of CPU and memory usage. -/
def totalUsage (containers : List ContainerUsage) : Int × Int :=
  containers.foldl
    (fun acc container => (wrapInt64 (acc.1 + container.cpu), wrapInt64 (acc.2 + container.memory)))
    (0, 0)

/-- `float64(total) / float64(limit) * 100`. -/
def percentage (rnd : ℚ → F64) (total limit : Int) : F64 :=
  F64.mul rnd (F64.div rnd (F64.ofInt rnd total) (F64.ofInt rnd limit)) (F64.fin 100)

/-- One iteration of `for _, pod := range pods` in `collectMetrics`. -/
def collectPod (rnd : ℚ → F64) (client : MetricsClient) (podMetrics : Metrics) (pod : Pod) :
    Except Failure Metrics :=
  match client.get pod.Name with
  | .error err =>
    .error (.error ("error getting pod metrics for " ++ pod.Name ++ ": " ++ err))
  | .ok containers =>
    let total := totalUsage containers
    match pod.Containers with
    | [] => .error (.panic "index out of range [0] with length 0")
    | c0 :: _ =>
      let avgCPUPercentage := percentage rnd total.1 c0.cpuLimit
      let avgMemoryPercentage := percentage rnd total.2 c0.memoryLimit
      .ok (mapSet (mapSet podMetrics (pod.Name ++ "_cpu") avgCPUPercentage)
            (pod.Name ++ "_memory") avgMemoryPercentage)

/-- The loop `for _, pod := range pods` of `collectMetrics`, left at the first failure. -/
def collectLoop (rnd : ℚ → F64) (client : MetricsClient) :
    Metrics → List Pod → Except Failure Metrics
  | podMetrics, [] => .ok podMetrics
  | podMetrics, pod :: rest =>
    match collectPod rnd client podMetrics pod with
    | .error e => .error e
    | .ok podMetrics1 => collectLoop rnd client podMetrics1 rest

/-- Go `collectMetrics`; `newForConfig` is the result of `versioned.NewForConfig(config)`. -/
def collectMetrics (rnd : ℚ → F64) (newForConfig : Except String MetricsClient)
    (pods : List Pod) : Except Failure Metrics :=
  match newForConfig with
  | .error err => .error (.error ("error creating metrics client: " ++ err))
  | .ok metricsClient => collectLoop rnd metricsClient [] pods

/-! ## `scalePods` -/

/-- A Deployment or ReplicaSet of the workload registry: what identifies it, what a label
selector looks at, and `Spec.Replicas`. -/
structure Workload where
  Namespace : String
  Name : String
  Labels : List (String × String)
  Replicas : Int
  deriving DecidableEq, Repr

/-- A request received by the workload registry. -/
inductive Call where
  | listDeployments (ns sel : String)
  | updateDeployment (ns name : String) (replicas : Int)
  | listReplicaSets (ns sel : String)
  | updateReplicaSet (ns name : String) (replicas : Int)
  deriving DecidableEq, Repr

/-- The workload registry as explicit state: the stored objects of the two kinds and the
requests received so far. -/
structure Cluster where
  deployments : List Workload
  replicaSets : List Workload
  calls : List Call
  deriving DecidableEq, Repr

/-- What the program does not decide about the registry: which labels a label selector
selects, and whether a request fails (with which error). -/
structure Api where
  selects : String → List (String × String) → Bool
  listDeploymentsErr : Cluster → Option String
  updateDeploymentErr : Cluster → Workload → Option String
  listReplicaSetsErr : Cluster → Option String
  updateReplicaSetErr : Cluster → Workload → Option String

/-- The workloads of a namespace that the selector selects. -/
def selected (api : Api) (ns sel : String) (w : Workload) : Bool :=
  decide (w.Namespace = ns) && api.selects sel w.Labels

/-- What identifies a workload among those of its kind: namespace and name. -/
def Workload.key (w : Workload) : String × String := (w.Namespace, w.Name)

/-- Writing `w` over the stored object of the same namespace and name. -/
def store (w : Workload) (ws : List Workload) : List Workload :=
  ws.map (fun o => if o.key = w.key then w else o)

/-- `Deployments(namespace).List` with a label selector. -/
def listDeployments (api : Api) (c : Cluster) (ns sel : String) :
    Except String (List Workload) × Cluster :=
  let c1 := { c with calls := c.calls ++ [Call.listDeployments ns sel] }
  match api.listDeploymentsErr c with
  | some err => (.error err, c1)
  | none => (.ok (c.deployments.filter (selected api ns sel)), c1)

/-- `ReplicaSets(namespace).List` with a label selector. -/
def listReplicaSets (api : Api) (c : Cluster) (ns sel : String) :
    Except String (List Workload) × Cluster :=
  let c1 := { c with calls := c.calls ++ [Call.listReplicaSets ns sel] }
  match api.listReplicaSetsErr c with
  | some err => (.error err, c1)
  | none => (.ok (c.replicaSets.filter (selected api ns sel)), c1)

/-- The error of an update whose object is not of the namespace the request addresses. -/
def namespaceMismatch : String :=
  "the namespace of the provided object does not match the namespace sent on the request"

/-- `Deployments(namespace).Update`. -/
def updateDeployment (api : Api) (c : Cluster) (ns : String) (w : Workload) :
    Option String × Cluster :=
  let c1 := { c with calls := c.calls ++ [Call.updateDeployment ns w.Name w.Replicas] }
  if w.Namespace ≠ ns then (some namespaceMismatch, c1)
  else
    match api.updateDeploymentErr c w with
    | some err => (some err, c1)
    | none => (none, { c1 with deployments := store w c.deployments })

/-- `ReplicaSets(namespace).Update`. -/
def updateReplicaSet (api : Api) (c : Cluster) (ns : String) (w : Workload) :
    Option String × Cluster :=
  let c1 := { c with calls := c.calls ++ [Call.updateReplicaSet ns w.Name w.Replicas] }
  if w.Namespace ≠ ns then (some namespaceMismatch, c1)
  else
    match api.updateReplicaSetErr c w with
    | some err => (some err, c1)
    | none => (none, { c1 with replicaSets := store w c.replicaSets })

/-- The loop `for _, deployment := range deployments.Items` of `scalePods`. -/
def scaleDeployments (api : Api) (ns : String) (scaleDecision : Int) :
    Cluster → List Workload → Option String × Cluster
  | c, [] => (none, c)
  | c, deployment :: rest =>
    match updateDeployment api c ns { deployment with Replicas := toInt32 scaleDecision } with
    | (some err, c1) => (some ("error updating deployment " ++ deployment.Name ++ ": " ++ err), c1)
    | (none, c1) => scaleDeployments api ns scaleDecision c1 rest

/-- The loop `for _, replicaSet := range replicaSets.Items` of `scalePods`. -/
def scaleReplicaSets (api : Api) (ns : String) (scaleDecision : Int) :
    Cluster → List Workload → Option String × Cluster
  | c, [] => (none, c)
  | c, replicaSet :: rest =>
    match updateReplicaSet api c ns { replicaSet with Replicas := toInt32 scaleDecision } with
    | (some err, c1) => (some ("error updating ReplicaSet " ++ replicaSet.Name ++ ": " ++ err), c1)
    | (none, c1) => scaleReplicaSets api ns scaleDecision c1 rest

/-- Go `scalePods`: the returned error (`none` for `nil`) and the registry afterwards. -/
def scalePods (api : Api) (c : Cluster) (ns labelSelector : String) (scaleDecision : Int) :
    Option String × Cluster :=
  match listDeployments api c ns labelSelector with
  | (.error err, c1) => (some ("error listing deployments: " ++ err), c1)
  | (.ok deployments, c1) =>
    match scaleDeployments api ns scaleDecision c1 deployments with
    | (some err, c2) => (some err, c2)
    | (none, c2) =>
      match listReplicaSets api c2 ns labelSelector with
      | (.error err, c3) => (some ("error listing ReplicaSets: " ++ err), c3)
      | (.ok replicaSets, c3) => scaleReplicaSets api ns scaleDecision c3 replicaSets

/-! ## `Run` -/

/-- What `Run` does that is visible from outside, in order. -/
inductive Event where
  | fatalf (msg : String)
  | listPods (ns sel : String)
  | println
  | printf (msg : String)
  | collectMetrics
  | makeScalingDecision
  | scalePods (scaleDecision : Int)
  | sleep (seconds : Nat)
  | panic (msg : String)
  deriving DecidableEq, Repr

/-- What the outside world answers during one iteration of the loop of `Run`:
the result of listing the pods, the result of creating the metrics client, the order in
which the runtime makes the `range` loop of `makeScalingDecision` visit the entries of the
metrics map (a rearrangement of its entries), and the registry API. -/
structure TickEnv where
  podList : Except String (List Pod)
  newForConfig : Except String MetricsClient
  rangeOrder : Metrics → Metrics
  rangeOrder_perm : ∀ m, (rangeOrder m).Perm m
  api : Api

/-- How one iteration of the loop ends. -/
inductive Next where
  | again
  | crashed
  deriving DecidableEq, Repr

/-- The body of the `for` loop of `Run`, with the policy of `Run`:
`minReplicas = 1`, `maxReplicas = 10`, `scaleUpThreshold = 80`, `scaleDownThreshold = 20`. -/
def loopBody (rnd : ℚ → F64) (labelSelector ns : String) (env : TickEnv) (c : Cluster) :
    List Event × Cluster × Next :=
  let minReplicas : Int := 1
  let maxReplicas : Int := 10
  let scaleUpThreshold : Int := 80
  let scaleDownThreshold : Int := 20
  match env.podList with
  | .error err =>
    ([.listPods ns labelSelector, .println, .printf ("Error listing pods: " ++ err)], c, .again)
  | .ok pods =>
    match collectMetrics rnd env.newForConfig pods with
    | .error (.panic msg) =>
      ([.listPods ns labelSelector, .println, .collectMetrics, .panic msg], c, .crashed)
    | .error (.error err) =>
      ([.listPods ns labelSelector, .println, .collectMetrics,
        .printf ("Error collecting metrics: " ++ err)], c, .again)
    | .ok metrics =>
      match makeScalingDecision rnd (env.rangeOrder metrics) minReplicas maxReplicas
          scaleUpThreshold scaleDownThreshold with
      | .error err =>
        ([.listPods ns labelSelector, .println, .collectMetrics, .makeScalingDecision,
          .printf ("Error making scaling decision: " ++ err)], c, .again)
      | .ok scaleDecision =>
        if scaleDecision ≠ 0 then
          match scalePods env.api c ns labelSelector scaleDecision with
          | (some err, c1) =>
            ([.listPods ns labelSelector, .println, .collectMetrics, .makeScalingDecision,
              .scalePods scaleDecision, .printf ("Error scaling pods: " ++ err), .sleep 60],
              c1, .again)
          | (none, c1) =>
            ([.listPods ns labelSelector, .println, .collectMetrics, .makeScalingDecision,
              .scalePods scaleDecision,
              .printf ("Successfully scaled pods with decision: " ++ toString scaleDecision),
              .sleep 60], c1, .again)
        else
          ([.listPods ns labelSelector, .println, .collectMetrics, .makeScalingDecision,
            .sleep 60], c, .again)

/-- The `for` loop of `Run` over the iterations whose answers are given. -/
def runLoop (rnd : ℚ → F64) (labelSelector ns : String) :
    List TickEnv → Cluster → List Event × Cluster
  | [], c => ([], c)
  | env :: rest, c =>
    match loopBody rnd labelSelector ns env c with
    | (events, c1, .crashed) => (events, c1)
    | (events, c1, .again) =>
      let r := runLoop rnd labelSelector ns rest c1
      (events ++ r.1, r.2)

/-- Go `Run`: `buildConfig` and `newClientset` are the errors (if any) of
`clientcmd.BuildConfigFromFlags` and `kubernetes.NewForConfig`; the loop never ends, and
the result describes its first `ticks.length` iterations. -/
def Run (rnd : ℚ → F64) (buildConfig newClientset : Option String)
    (labelSelector ns : String) (ticks : List TickEnv) (c : Cluster) : List Event × Cluster :=
  match buildConfig with
  | some err => ([.fatalf ("Error building kubeconfig: " ++ err)], c)
  | none =>
    match newClientset with
    | some err => ([.fatalf ("Error creating clientset: " ++ err)], c)
    | none => runLoop rnd labelSelector ns ticks c

/-- Whether, in a trace, every start of sampling (`listPods`) after the first comes after
a `sleep` of at least `period` seconds that follows the previous start of sampling.
`waited` says whether such a sleep has been seen since the last `listPods`. -/
def waitsBetweenTicks (period : Nat) : Bool → List Event → Bool
  | _, [] => true
  | waited, .listPods _ _ :: rest => waited && waitsBetweenTicks period false rest
  | waited, .sleep s :: rest => waitsBetweenTicks period (waited || decide (period ≤ s)) rest
  | waited, _ :: rest => waitsBetweenTicks period waited rest

/-! ## Concrete inputs -/

/-- Three instances, each at 85% CPU and 40% memory. -/
def threeBusy : Metrics :=
  [("a_cpu", .fin 85), ("a_memory", .fin 40), ("b_cpu", .fin 85), ("b_memory", .fin 40),
   ("c_cpu", .fin 85), ("c_memory", .fin 40)]

/-- Two instances, each at 10% CPU and 15% memory. -/
def twoIdle : Metrics :=
  [("a_cpu", .fin 10), ("a_memory", .fin 15), ("b_cpu", .fin 10), ("b_memory", .fin 15)]

/-- One instance at 10% CPU and 15% memory. -/
def oneIdle : Metrics := [("a_cpu", .fin 10), ("a_memory", .fin 15)]

/-- One instance at 85% CPU and 40% memory. -/
def oneBusy : Metrics := [("a_cpu", .fin 85), ("a_memory", .fin 40)]

/-- One instance at 50% CPU and 10% memory: only the memory is low. -/
def oneMixed : Metrics := [("a_cpu", .fin 50), ("a_memory", .fin 10)]

/-- Twelve instances, each at 10% CPU and 15% memory. -/
def twelveIdle : Metrics :=
  [("a_cpu", .fin 10), ("a_memory", .fin 15), ("b_cpu", .fin 10), ("b_memory", .fin 15),
   ("c_cpu", .fin 10), ("c_memory", .fin 15), ("d_cpu", .fin 10), ("d_memory", .fin 15),
   ("e_cpu", .fin 10), ("e_memory", .fin 15), ("f_cpu", .fin 10), ("f_memory", .fin 15),
   ("g_cpu", .fin 10), ("g_memory", .fin 15), ("h_cpu", .fin 10), ("h_memory", .fin 15),
   ("i_cpu", .fin 10), ("i_memory", .fin 15), ("j_cpu", .fin 10), ("j_memory", .fin 15),
   ("k_cpu", .fin 10), ("k_memory", .fin 15), ("l_cpu", .fin 10), ("l_memory", .fin 15)]

/-- A pod "p" whose only container declares no CPU limit (it reads as 0) and a memory
limit of 100. -/
def noCPULimitPod : Pod := ⟨"p", [⟨0, 100⟩]⟩

/-- A metrics service that reports, for every pod, one container using 100 millicores
and 50 bytes. -/
def steadyClient : MetricsClient := ⟨fun _ => .ok [⟨100, 50⟩]⟩

/-- A metrics service whose every read fails. -/
def downClient : MetricsClient := ⟨fun _ => .error "metrics not available"⟩

/-- A registry API that never fails; a selector `k=v` selects the label lists that hold
the label `k` with value `v`. -/
def quietApi : Api :=
  { selects := fun sel labels => labels.any (fun l => l.1 ++ "=" ++ l.2 == sel),
    listDeploymentsErr := fun _ => none,
    updateDeploymentErr := fun _ _ => none,
    listReplicaSetsErr := fun _ => none,
    updateReplicaSetErr := fun _ _ => none }

/-- A registry with two Deployments and two ReplicaSets in the namespace "default"; one
of each kind carries the label `app=web`. -/
def webCluster : Cluster :=
  { deployments := [⟨"default", "web", [("app", "web")], 2⟩, ⟨"default", "db", [("app", "db")], 1⟩],
    replicaSets := [⟨"default", "web-7d4", [("app", "web")], 2⟩,
                    ⟨"default", "db-9c1", [("app", "db")], 1⟩],
    calls := [] }

/-- An iteration in which the pod with no CPU limit is listed and its usage is read. -/
def noCPULimitTick : TickEnv :=
  ⟨.ok [noCPULimitPod], .ok steadyClient, id, fun _ => List.Perm.refl _, quietApi⟩

/-- An iteration in which listing the pods fails. -/
def listFailsTick : TickEnv :=
  ⟨.error "connection refused", .ok steadyClient, id, fun _ => List.Perm.refl _, quietApi⟩

/-- An iteration in which reading the usage of the listed pod fails. -/
def readFailsTick : TickEnv :=
  ⟨.ok [noCPULimitPod], .ok downClient, id, fun _ => List.Perm.refl _, quietApi⟩

/-- An iteration in which no pod is listed, so that the decision fails on empty metrics. -/
def noPodsTick : TickEnv :=
  ⟨.ok [], .ok steadyClient, id, fun _ => List.Perm.refl _, quietApi⟩

/-- A pod "web-1" whose only container has a CPU limit of 100 millicores and a memory
limit of 100 bytes. -/
def webPod : Pod := ⟨"web-1", [⟨100, 100⟩]⟩

/-- What `collectMetrics` stores for `webPod` read through `steadyClient`: 100% CPU and
50% memory. -/
def webCollected : Metrics := [("web-1_cpu", .fin 100), ("web-1_memory", .fin 50)]

/-- The entries of `webCollected` as a `range` loop that starts at the memory entry
visits them. -/
def webVisited : Metrics := [("web-1_memory", .fin 50), ("web-1_cpu", .fin 100)]

/-- An iteration in which `webPod` is listed, its usage is read, and the `range` loop of
the decision visits the entries in the reverse of the order of insertion. -/
def busyTick : TickEnv :=
  ⟨.ok [webPod], .ok steadyClient, List.reverse, fun m => List.reverse_perm m, quietApi⟩

/-- One instance whose CPU reading is `2^53` and whose memory reading is 0. -/
def hugeIdle : Metrics := [("a_cpu", .fin 9007199254740992), ("a_memory", .fin 0)]

/-! ## Lemmas on `float64` comparisons -/

theorem F64.le_false_of_lt {a b : F64} (h : F64.lt a b = true) : F64.le b a = false := by
  cases a <;> cases b <;> simp_all [F64.lt, F64.le]

theorem F64.ge_false_of_le_of_lt {a b c : F64} (hab : F64.le a b = true)
    (hbc : F64.lt b c = true) : F64.ge a c = false := by
  cases a <;> cases b <;> cases c <;> simp_all [F64.lt, F64.le, F64.ge]
  exact lt_of_le_of_lt hab hbc

theorem F64.ofInt_lt_ofInt (rnd : ℚ → F64) {a b : Int} (ha : a.natAbs ≤ 2 ^ 53)
    (hb : b.natAbs ≤ 2 ^ 53) (h : a < b) : F64.lt (F64.ofInt rnd a) (F64.ofInt rnd b) = true := by
  have ea : F64.ofInt rnd a = F64.fin a := by unfold F64.ofInt; rw [if_pos ha]
  have eb : F64.ofInt rnd b = F64.fin b := by unfold F64.ofInt; rw [if_pos hb]
  rw [ea, eb]
  simpa [F64.lt] using h

/-! ## The aggregation loop computes the aggregate of the specification -/

theorem hasSuffix_cpu_not_memory (s : String) (h : HasSuffix s "_cpu" = true) :
    HasSuffix s "_memory" = false := by
  cases hm : HasSuffix s "_memory" with
  | false => rfl
  | true =>
    exfalso
    simp only [HasSuffix, List.isSuffixOf_iff_suffix] at h hm
    obtain ⟨t1, h1⟩ := h
    obtain ⟨t2, h2⟩ := hm
    have e1 : s.data.getLast? = some 'u' := by
      rw [← h1]; simp [List.getLast?_append]
    have e2 : s.data.getLast? = some 'y' := by
      rw [← h2]; simp [List.getLast?_append]
    rw [e1] at e2
    exact absurd e2 (by decide)

theorem foldl_accumulate (rnd : ℚ → F64) (metrics : Metrics) (t : Totals) :
    metrics.foldl (accumulate rnd) t =
      ⟨((metrics.filter isCPU).map Prod.snd).foldl (F64.add rnd) t.totalCPUPercentage,
       ((metrics.filter isMemory).map Prod.snd).foldl (F64.add rnd) t.totalMemoryPercentage,
       t.podCount + (metrics.filter isCPU).length⟩ := by
  induction metrics generalizing t with
  | nil => simp
  | cons e rest ih =>
    rw [List.foldl_cons, ih]
    by_cases hc : HasSuffix e.1 "_cpu" = true
    · have hm := hasSuffix_cpu_not_memory e.1 hc
      simp [accumulate, isCPU, isMemory, hc, hm, List.filter_cons]
      omega
    · by_cases hm : HasSuffix e.1 "_memory" = true
      · simp [accumulate, isCPU, isMemory, hc, hm, List.filter_cons]
      · simp [accumulate, isCPU, isMemory, hc, hm, List.filter_cons]

theorem aggregate_eq (rnd : ℚ → F64) (metrics : Metrics) :
    aggregate rnd metrics =
      ⟨sumOf rnd ((metrics.filter isCPU).map Prod.snd),
       sumOf rnd ((metrics.filter isMemory).map Prod.snd), sampleCount metrics⟩ := by
  simp [aggregate, foldl_accumulate, sumOf, sampleCount]

/-- The decision rule of `makeScalingDecision` in terms of the aggregate. -/
theorem makeScalingDecision_eq (rnd : ℚ → F64) (metrics : Metrics)
    (minReplicas maxReplicas scaleUpThreshold scaleDownThreshold : Int) :
    makeScalingDecision rnd metrics minReplicas maxReplicas scaleUpThreshold scaleDownThreshold =
      if metrics = [] then .error "no metrics data available"
      else if scaleUpCondition rnd metrics scaleUpThreshold = true then
        .ok (min maxReplicas ((sampleCount metrics : Int) + 1))
      else if scaleDownCondition rnd metrics scaleDownThreshold = true then
        .ok (max minReplicas ((sampleCount metrics : Int) - 1))
      else .ok 0 := by
  simp only [makeScalingDecision, aggregate_eq, scaleUpCondition, scaleDownCondition, meanCPU,
    meanMemory, List.length_eq_zero]

/-! ## The decision engine -/

/-- C1 (counterexample): three instances at 85% CPU with `maxReplicas = 0` meet the
scale-up condition, and the value returned is `0`, the value that stands for Hold. -/
theorem C1_returns_hold_value_when_maxReplicas_zero :
    F64.ge (meanCPU F64.exact threeBusy) (F64.ofInt F64.exact 80) = true ∧
      makeScalingDecision F64.exact threeBusy 0 0 80 20 = .ok 0 := by
  decide!

/-- C1 (amended): for a non-empty metrics map, if the mean CPU or the mean memory is at
least the scale-up threshold, `makeScalingDecision` returns without error the target
`min(maxReplicas, sampleCount + 1)`, and that value is not the Hold value `0` as soon as
`maxReplicas ≠ 0`. -/
theorem C1_scale_up (rnd : ℚ → F64) (metrics : Metrics)
    (minReplicas maxReplicas scaleUpThreshold scaleDownThreshold : Int)
    (hne : metrics ≠ [])
    (hup : F64.ge (meanCPU rnd metrics) (F64.ofInt rnd scaleUpThreshold) = true ∨
      F64.ge (meanMemory rnd metrics) (F64.ofInt rnd scaleUpThreshold) = true) :
    makeScalingDecision rnd metrics minReplicas maxReplicas scaleUpThreshold scaleDownThreshold
        = .ok (min maxReplicas ((sampleCount metrics : Int) + 1)) ∧
      (maxReplicas ≠ 0 →
        makeScalingDecision rnd metrics minReplicas maxReplicas scaleUpThreshold
          scaleDownThreshold ≠ .ok 0) := by
  have hc : scaleUpCondition rnd metrics scaleUpThreshold = true := by
    simpa [scaleUpCondition] using hup
  have hr : makeScalingDecision rnd metrics minReplicas maxReplicas scaleUpThreshold
      scaleDownThreshold = .ok (min maxReplicas ((sampleCount metrics : Int) + 1)) := by
    rw [makeScalingDecision_eq, if_neg hne, if_pos hc]
  refine ⟨hr, fun hmax h0 => ?_⟩
  rw [hr] at h0
  have h1 : min maxReplicas ((sampleCount metrics : Int) + 1) = 0 := by
    injection h0
  have h2 : (0 : Int) ≤ (sampleCount metrics : Int) := Int.ofNat_nonneg _
  rcases min_choice maxReplicas ((sampleCount metrics : Int) + 1) with h | h <;> omega

/-- C1 (witness): three instances at 85% CPU and 40% memory with thresholds 80 and 20. -/
theorem C1_scale_up_witness :
    threeBusy ≠ [] ∧
      F64.ge (meanCPU F64.exact threeBusy) (F64.ofInt F64.exact 80) = true ∧
      makeScalingDecision F64.exact threeBusy 1 10 80 20 = .ok (min 10 4) :=
  ⟨by decide, by decide!,
    (C1_scale_up F64.exact threeBusy 1 10 80 20 (by decide) (Or.inl (by decide!))).1⟩

/-- C2 (counterexample): with `scaleDownThreshold = 2^53 < scaleUpThreshold = 2^53 + 1`
and one instance whose CPU reading is `2^53` and memory reading 0, both means are at most
the scale-down threshold, yet `float64(2^53 + 1)` is `2^53` and the code takes the
scale-up branch: it returns 2, not `max(1, 1 - 1) = 1`. -/
theorem C2_scale_up_when_thresholds_round_together :
    (9007199254740992 : Int) < 9007199254740993 ∧
      hugeIdle ≠ [] ∧ sampleCount hugeIdle = 1 ∧
      F64.ofInt F64.roundNearestEven 9007199254740993 = .fin 9007199254740992 ∧
      F64.le (meanCPU F64.roundNearestEven hugeIdle)
        (F64.ofInt F64.roundNearestEven 9007199254740992) = true ∧
      F64.le (meanMemory F64.roundNearestEven hugeIdle)
        (F64.ofInt F64.roundNearestEven 9007199254740992) = true ∧
      makeScalingDecision F64.roundNearestEven hugeIdle 1 10 9007199254740993
        9007199254740992 = .ok 2 := by
  decide!

/-- C2 (amended): for a non-empty metrics map and thresholds that satisfy
`float64(scaleDownThreshold) < float64(scaleUpThreshold)`, the comparison at the type the
code compares with (for thresholds of magnitude at most `2^53` it is the integer
`scaleDownThreshold < scaleUpThreshold`), if the mean CPU and the mean memory are both at
most the scale-down threshold, `makeScalingDecision` returns without error the target
`max(minReplicas, sampleCount - 1)`. -/
theorem C2_scale_down (rnd : ℚ → F64) (metrics : Metrics)
    (minReplicas maxReplicas scaleUpThreshold scaleDownThreshold : Int)
    (hne : metrics ≠ [])
    (hlt : F64.lt (F64.ofInt rnd scaleDownThreshold) (F64.ofInt rnd scaleUpThreshold) = true)
    (hcpu : F64.le (meanCPU rnd metrics) (F64.ofInt rnd scaleDownThreshold) = true)
    (hmem : F64.le (meanMemory rnd metrics) (F64.ofInt rnd scaleDownThreshold) = true) :
    makeScalingDecision rnd metrics minReplicas maxReplicas scaleUpThreshold scaleDownThreshold
      = .ok (max minReplicas ((sampleCount metrics : Int) - 1)) := by
  have hu : scaleUpCondition rnd metrics scaleUpThreshold = false := by
    simp [scaleUpCondition, F64.ge_false_of_le_of_lt hcpu hlt, F64.ge_false_of_le_of_lt hmem hlt]
  have hd : scaleDownCondition rnd metrics scaleDownThreshold = true := by
    simp [scaleDownCondition, hcpu, hmem]
  rw [makeScalingDecision_eq, if_neg hne, hu, hd]
  simp

/-- C2 (witness): two instances at 10% CPU and 15% memory with thresholds 80 and 20. -/
theorem C2_scale_down_witness :
    twoIdle ≠ [] ∧
      F64.lt (F64.ofInt F64.exact 20) (F64.ofInt F64.exact 80) = true ∧
      F64.le (meanCPU F64.exact twoIdle) (F64.ofInt F64.exact 20) = true ∧
      F64.le (meanMemory F64.exact twoIdle) (F64.ofInt F64.exact 20) = true ∧
      makeScalingDecision F64.exact twoIdle 1 10 80 20 = .ok (max 1 1) :=
  ⟨by decide, by decide!, by decide!, by decide!,
    C2_scale_down F64.exact twoIdle 1 10 80 20 (by decide) (by decide!) (by decide!)
      (by decide!)⟩

/-- C3 (the code at the failing inputs): with the policy of `Run` (1 to 10 replicas) twelve
idle instances give the target 11, above `maxReplicas`; with 5 to 10 replicas one busy
instance gives the target 2, below `minReplicas`. -/
theorem C3_target_outside_bounds :
    makeScalingDecision F64.exact twelveIdle 1 10 80 20 = .ok 11 ∧
      makeScalingDecision F64.exact oneBusy 5 10 80 20 = .ok 2 := by
  decide!

/-- C4: for a non-empty metrics map, if the mean CPU and the mean memory are both below
the scale-up threshold and at least one of them is above the scale-down threshold,
`makeScalingDecision` returns `0` (Hold) without error. -/
theorem C4_hold (rnd : ℚ → F64) (metrics : Metrics)
    (minReplicas maxReplicas scaleUpThreshold scaleDownThreshold : Int)
    (hne : metrics ≠ [])
    (hcpu : F64.lt (meanCPU rnd metrics) (F64.ofInt rnd scaleUpThreshold) = true)
    (hmem : F64.lt (meanMemory rnd metrics) (F64.ofInt rnd scaleUpThreshold) = true)
    (hdown : F64.gt (meanCPU rnd metrics) (F64.ofInt rnd scaleDownThreshold) = true ∨
      F64.gt (meanMemory rnd metrics) (F64.ofInt rnd scaleDownThreshold) = true) :
    makeScalingDecision rnd metrics minReplicas maxReplicas scaleUpThreshold scaleDownThreshold
      = .ok 0 := by
  have hu : scaleUpCondition rnd metrics scaleUpThreshold = false := by
    simp [scaleUpCondition, F64.ge, F64.le_false_of_lt hcpu, F64.le_false_of_lt hmem]
  have hd : scaleDownCondition rnd metrics scaleDownThreshold = false := by
    rcases hdown with h | h
    · simp [scaleDownCondition, F64.le_false_of_lt h]
    · simp [scaleDownCondition, F64.le_false_of_lt h]
  rw [makeScalingDecision_eq, if_neg hne, hu, hd]
  simp

/-- C4 (witness): one instance at 50% CPU and 10% memory, thresholds 80 and 20: only the
memory is low, and the decision is Hold. -/
theorem C4_hold_witness :
    oneMixed ≠ [] ∧
      F64.lt (meanCPU F64.exact oneMixed) (F64.ofInt F64.exact 80) = true ∧
      F64.lt (meanMemory F64.exact oneMixed) (F64.ofInt F64.exact 80) = true ∧
      F64.gt (meanCPU F64.exact oneMixed) (F64.ofInt F64.exact 20) = true ∧
      makeScalingDecision F64.exact oneMixed 1 10 80 20 = .ok 0 :=
  ⟨by decide, by decide!, by decide!, by decide!,
    C4_hold F64.exact oneMixed 1 10 80 20 (by decide) (by decide!) (by decide!)
      (Or.inl (by decide!))⟩

/-- C5: on the empty metrics map `makeScalingDecision` returns the error
"no metrics data available", which is neither Hold nor any `ScaleTo(n)`. -/
theorem C5_empty_metrics (rnd : ℚ → F64)
    (minReplicas maxReplicas scaleUpThreshold scaleDownThreshold : Int) :
    makeScalingDecision rnd [] minReplicas maxReplicas scaleUpThreshold scaleDownThreshold
        = .error "no metrics data available" ∧
      ∀ n : Int, makeScalingDecision rnd [] minReplicas maxReplicas scaleUpThreshold
        scaleDownThreshold ≠ .ok n := by
  constructor
  · rfl
  · intro n h
    simp [makeScalingDecision] at h

/-- C9 (counterexample): with the policy of `Run` one idle instance gives the non-zero
target 1, which is the sampled instance count itself: the step is 0, not 1. -/
theorem C9_step_zero_at_minReplicas :
    sampleCount oneIdle = 1 ∧ makeScalingDecision F64.exact oneIdle 1 10 80 20 = .ok 1 := by
  decide!

/-- C9 (amended): whenever `makeScalingDecision` returns a target `n`: on the scale-up
branch with `sampleCount < maxReplicas`, `n = sampleCount + 1`; on the scale-down branch
with `minReplicas < sampleCount`, `n = sampleCount - 1`; and every non-zero `n` comes from
one of the two branches.  The step is one replica whatever the distance of the means from
the thresholds. -/
theorem C9_unit_step_unless_clamped (rnd : ℚ → F64) (metrics : Metrics)
    (minReplicas maxReplicas scaleUpThreshold scaleDownThreshold n : Int)
    (hret : makeScalingDecision rnd metrics minReplicas maxReplicas scaleUpThreshold
      scaleDownThreshold = .ok n) :
    (scaleUpCondition rnd metrics scaleUpThreshold = true →
        (sampleCount metrics : Int) < maxReplicas → n = (sampleCount metrics : Int) + 1) ∧
      (scaleUpCondition rnd metrics scaleUpThreshold = false →
        scaleDownCondition rnd metrics scaleDownThreshold = true →
        minReplicas < (sampleCount metrics : Int) → n = (sampleCount metrics : Int) - 1) ∧
      (n ≠ 0 → scaleUpCondition rnd metrics scaleUpThreshold = true ∨
        scaleDownCondition rnd metrics scaleDownThreshold = true) := by
  rw [makeScalingDecision_eq] at hret
  split at hret
  · cases hret
  · split at hret
    · rename_i hu
      injection hret with h
      refine ⟨fun _ hmax => ?_, fun hf => ?_, fun _ => Or.inl hu⟩
      · rw [← h]
        exact min_eq_right (by omega)
      · rw [hu] at hf
        cases hf
    · rename_i hu
      split at hret
      · rename_i hd
        injection hret with h
        refine ⟨fun ht => absurd ht hu, fun _ _ hmin => ?_, fun _ => Or.inr hd⟩
        rw [← h]
        exact max_eq_right (by omega)
      · rename_i hd
        injection hret with h
        exact ⟨fun ht => absurd ht hu, fun _ ht => absurd ht hd, fun hn => absurd h.symm hn⟩

/-- C9 (witness): under the policy of `Run`, one busy instance goes from 1 to 2 and two
idle instances go from 2 to 1. -/
theorem C9_unit_step_unless_clamped_witness :
    makeScalingDecision F64.exact oneBusy 1 10 80 20 = .ok 2 ∧
      (2 : Int) = (sampleCount oneBusy : Int) + 1 ∧
      makeScalingDecision F64.exact twoIdle 1 10 80 20 = .ok 1 ∧
      (1 : Int) = (sampleCount twoIdle : Int) - 1 :=
  ⟨by decide!,
    (C9_unit_step_unless_clamped F64.exact oneBusy 1 10 80 20 2 (by decide!)).1 (by decide!)
      (by decide),
    by decide!,
    (C9_unit_step_unless_clamped F64.exact twoIdle 1 10 80 20 1 (by decide!)).2.1
      (by decide!) (by decide!) (by decide)⟩

/-- In an iteration of `Run` that obtained `metrics`, `scalePods` is invoked exactly when
`makeScalingDecision`, visiting the map in the order of that iteration, returned a
non-zero value without error. -/
theorem loopBody_scalePods_iff (rnd : ℚ → F64) (labelSelector ns : String) (env : TickEnv)
    (c : Cluster) (pods : List Pod) (metrics : Metrics) (hp : env.podList = .ok pods)
    (hm : collectMetrics rnd env.newForConfig pods = .ok metrics) :
    (∃ n, Event.scalePods n ∈ (loopBody rnd labelSelector ns env c).1) ↔
      ∃ n, makeScalingDecision rnd (env.rangeOrder metrics) 1 10 80 20 = .ok n ∧ n ≠ 0 := by
  simp only [loopBody, hp, hm]
  cases hd : makeScalingDecision rnd (env.rangeOrder metrics) 1 10 80 20 with
  | error err => simp
  | ok n =>
    by_cases hn : n = 0
    · simp [hn]
    · simp only [ne_eq, hn, not_false_eq_true, if_true]
      rcases hs : scalePods env.api c ns labelSelector n with ⟨_ | err, c1⟩
      · simp [hn]
      · simp [hn]

/-- C10: for a metrics map with at least one `_cpu` key, given in the order in which the
`range` loop visits it, (1) under every policy with `1 ≤ minReplicas ≤ maxReplicas`,
`makeScalingDecision` returns `0` without error exactly when neither the scale-up nor the
scale-down condition holds; (2) an iteration of `Run` that collected a map which the
runtime makes the decision visit in this order invokes `scalePods` exactly when the
scale-up or the scale-down condition holds for the thresholds 80 and 20 of `Run`. -/
theorem C10_zero_encodes_hold (rnd : ℚ → F64) (metrics : Metrics)
    (hcount : 1 ≤ sampleCount metrics) :
    (∀ minReplicas maxReplicas scaleUpThreshold scaleDownThreshold : Int,
      1 ≤ minReplicas → minReplicas ≤ maxReplicas →
      (makeScalingDecision rnd metrics minReplicas maxReplicas scaleUpThreshold
          scaleDownThreshold = .ok 0 ↔
        (scaleUpCondition rnd metrics scaleUpThreshold = false ∧
          scaleDownCondition rnd metrics scaleDownThreshold = false))) ∧
    (∀ (labelSelector ns : String) (env : TickEnv) (c : Cluster) (pods : List Pod)
        (collected : Metrics),
      env.podList = .ok pods → collectMetrics rnd env.newForConfig pods = .ok collected →
      env.rangeOrder collected = metrics →
      ((∃ n, Event.scalePods n ∈ (loopBody rnd labelSelector ns env c).1) ↔
        (scaleUpCondition rnd metrics 80 = true ∨ scaleDownCondition rnd metrics 20 = true))) := by
  have hne : metrics ≠ [] := by
    intro h
    rw [h] at hcount
    simp [sampleCount] at hcount
  have hc : (1 : Int) ≤ (sampleCount metrics : Int) := by exact_mod_cast hcount
  have key : ∀ minReplicas maxReplicas scaleUpThreshold scaleDownThreshold : Int,
      1 ≤ minReplicas → minReplicas ≤ maxReplicas →
      (makeScalingDecision rnd metrics minReplicas maxReplicas scaleUpThreshold
          scaleDownThreshold = .ok 0 ↔
        (scaleUpCondition rnd metrics scaleUpThreshold = false ∧
          scaleDownCondition rnd metrics scaleDownThreshold = false)) := by
    intro minReplicas maxReplicas up down hmin hmax
    rw [makeScalingDecision_eq, if_neg hne]
    cases hu : scaleUpCondition rnd metrics up
    · cases hd : scaleDownCondition rnd metrics down
      · simp
      · have : max minReplicas ((sampleCount metrics : Int) - 1) ≠ 0 := by
          have := le_max_left minReplicas ((sampleCount metrics : Int) - 1)
          omega
        simp [this]
    · have : min maxReplicas ((sampleCount metrics : Int) + 1) ≠ 0 := by
        rcases min_choice maxReplicas ((sampleCount metrics : Int) + 1) with h | h <;> omega
      simp [this]
  refine ⟨key, ?_⟩
  intro labelSelector ns env c pods collected hp hm hvisit
  rw [loopBody_scalePods_iff rnd labelSelector ns env c pods collected hp hm, hvisit]
  have hok : ∃ n, makeScalingDecision rnd metrics 1 10 80 20 = .ok n := by
    rw [makeScalingDecision_eq, if_neg hne]
    split
    · exact ⟨_, rfl⟩
    · split
      · exact ⟨_, rfl⟩
      · exact ⟨_, rfl⟩
  obtain ⟨n, hn⟩ := hok
  have hk := key 1 10 80 20 (by decide) (by decide)
  constructor
  · rintro ⟨k, hk1, hk0⟩
    by_contra hcon
    have hboth : scaleUpCondition rnd metrics 80 = false ∧
        scaleDownCondition rnd metrics 20 = false := by
      constructor
      · cases h : scaleUpCondition rnd metrics 80
        · rfl
        · exact absurd (Or.inl h) hcon
      · cases h : scaleDownCondition rnd metrics 20
        · rfl
        · exact absurd (Or.inr h) hcon
    have := hk.2 hboth
    rw [hk1] at this
    injection this with h0
    exact hk0 h0
  · intro hcond
    refine ⟨n, hn, fun h0 => ?_⟩
    rw [h0] at hn
    have := hk.1 hn
    rcases hcond with h | h
    · rw [this.1] at h; cases h
    · rw [this.2] at h; cases h

/-- C10 (witness): the pod "web-1" at 100% CPU under the policy of `Run`, in an iteration
whose decision visits the memory entry first: the value returned is not `0` and
`scalePods` is invoked. -/
theorem C10_zero_encodes_hold_witness :
    1 ≤ sampleCount webVisited ∧
      (makeScalingDecision F64.exact webVisited 1 10 80 20 = .ok 0 ↔
        (scaleUpCondition F64.exact webVisited 80 = false ∧
          scaleDownCondition F64.exact webVisited 20 = false)) ∧
      busyTick.podList = .ok [webPod] ∧
      collectMetrics F64.exact busyTick.newForConfig [webPod] = .ok webCollected ∧
      busyTick.rangeOrder webCollected = webVisited ∧
      ((∃ n, Event.scalePods n ∈
          (loopBody F64.exact "app=web" "default" busyTick webCluster).1) ↔
        (scaleUpCondition F64.exact webVisited 80 = true ∨
          scaleDownCondition F64.exact webVisited 20 = true)) :=
  ⟨by decide,
    (C10_zero_encodes_hold F64.exact webVisited (by decide)).1 1 10 80 20 (by decide)
      (by decide),
    rfl, by decide!, by decide!,
    (C10_zero_encodes_hold F64.exact webVisited (by decide)).2 "app=web" "default" busyTick
      webCluster [webPod] webCollected rfl (by decide!) (by decide!)⟩

/-! ## The utilization sampler -/

theorem hasSuffix_append (s t : String) : HasSuffix (s ++ t) t = true := by
  simp [HasSuffix, List.isSuffixOf_iff_suffix]

theorem append_cpu_ne_append_memory (s t : String) : s ++ "_cpu" ≠ t ++ "_memory" := by
  intro h
  have h1 := hasSuffix_append s "_cpu"
  have h2 := hasSuffix_append t "_memory"
  rw [h] at h1
  rw [hasSuffix_cpu_not_memory _ h1] at h2
  cases h2

theorem append_right_cancel {s t u : String} (h : s ++ u = t ++ u) : s = t := by
  have := congrArg String.data h
  simp only [String.data_append] at this
  exact String.ext (List.append_cancel_right this)

theorem mapGet_mapSet_self (m : Metrics) (k : String) (v : F64) :
    mapGet (mapSet m k v) k = some v := by
  induction m with
  | nil => simp [mapSet, mapGet]
  | cons e rest ih =>
    by_cases he : e.1 = k
    · simp [mapSet, mapGet, he]
    · simp [mapSet, mapGet, he, ih]

theorem mapGet_mapSet_ne (m : Metrics) (k k1 : String) (v : F64) (h : k1 ≠ k) :
    mapGet (mapSet m k1 v) k = mapGet m k := by
  induction m with
  | nil => simp [mapSet, mapGet, h]
  | cons e rest ih =>
    by_cases he : e.1 = k1
    · have : e.1 ≠ k := by rw [he]; exact h
      simp [mapSet, mapGet, he, h, this]
    · by_cases hk : e.1 = k
      · have hkk : ¬ k = k1 := fun h1 => h h1.symm
        simp [mapSet, mapGet, hk, hkk]
      · simp [mapSet, mapGet, he, hk, ih]

/-- A ratio over a limit that reads as 0 is never finite. -/
theorem percentage_zero_limit (rnd : ℚ → F64) (total : Int) :
    (percentage rnd total 0).isFinite = false := by
  have h0 : F64.ofInt rnd 0 = F64.fin 0 := by simp [F64.ofInt]
  unfold percentage
  rw [h0]
  cases F64.ofInt rnd total with
  | nan => simp [F64.div, F64.mul, F64.isFinite]
  | pinf => simp [F64.div, F64.mul, F64.isFinite]
  | ninf => simp [F64.div, F64.mul, F64.isFinite]
  | fin a =>
    by_cases ha : a = 0
    · simp [F64.div, F64.mul, F64.isFinite, ha]
    · by_cases hp : 0 < a
      · simp [F64.div, F64.mul, F64.isFinite, ha, hp]
      · simp [F64.div, F64.mul, F64.isFinite, ha, hp]

/-- What an iteration of the pod loop stores when the usage read succeeds and the pod has
a container. -/
theorem collectPod_ok (rnd : ℚ → F64) (client : MetricsClient) (m : Metrics) (pod : Pod)
    (usage : List ContainerUsage) (c0 : Container) (cs : List Container)
    (hget : client.get pod.Name = .ok usage) (hc : pod.Containers = c0 :: cs) :
    collectPod rnd client m pod =
      .ok (mapSet (mapSet m (pod.Name ++ "_cpu") (percentage rnd (totalUsage usage).1 c0.cpuLimit))
        (pod.Name ++ "_memory") (percentage rnd (totalUsage usage).2 c0.memoryLimit)) := by
  simp [collectPod, hget, hc]

/-- The pod loop leaves alone the keys that its pods do not write. -/
theorem collectLoop_frame (rnd : ℚ → F64) (client : MetricsClient) (k : String)
    (pods : List Pod) (m m1 : Metrics)
    (hk : ∀ pod ∈ pods, pod.Name ++ "_cpu" ≠ k ∧ pod.Name ++ "_memory" ≠ k)
    (h : collectLoop rnd client m pods = .ok m1) : mapGet m1 k = mapGet m k := by
  induction pods generalizing m with
  | nil =>
    simp only [collectLoop] at h
    injection h with h
    rw [h]
  | cons pod rest ih =>
    simp only [collectLoop] at h
    cases hp : collectPod rnd client m pod with
    | error e => rw [hp] at h; cases h
    | ok m2 =>
      rw [hp] at h
      have h2 := ih m2 (fun q hq => hk q (List.mem_cons_of_mem _ hq)) h
      rw [h2]
      have hpod := hk pod (List.mem_cons_self _ _)
      unfold collectPod at hp
      split at hp
      · cases hp
      · split at hp
        · cases hp
        · injection hp with hp
          rw [← hp, mapGet_mapSet_ne _ _ _ _ hpod.2, mapGet_mapSet_ne _ _ _ _ hpod.1]

theorem collectLoop_stores (rnd : ℚ → F64) (client : MetricsClient) (pods : List Pod)
    (m : Metrics)
    (hget : ∀ pod ∈ pods, ∃ usage, client.get pod.Name = .ok usage)
    (hcont : ∀ pod ∈ pods, pod.Containers ≠ [])
    (hnames : (pods.map Pod.Name).Nodup) :
    ∃ metrics, collectLoop rnd client m pods = .ok metrics ∧
      ∀ pod ∈ pods, ∀ c0 cs, pod.Containers = c0 :: cs →
        (c0.cpuLimit = 0 →
          ∃ v, mapGet metrics (pod.Name ++ "_cpu") = some v ∧ v.isFinite = false) ∧
        (c0.memoryLimit = 0 →
          ∃ v, mapGet metrics (pod.Name ++ "_memory") = some v ∧ v.isFinite = false) := by
  induction pods generalizing m with
  | nil => exact ⟨m, rfl, fun pod hp => absurd hp (List.not_mem_nil _)⟩
  | cons p rest ih =>
    obtain ⟨usage, hu⟩ := hget p (List.mem_cons_self _ _)
    have hpc := hcont p (List.mem_cons_self _ _)
    obtain ⟨d0, ds, hd⟩ := List.exists_cons_of_ne_nil hpc
    have hstep := collectPod_ok rnd client m p usage d0 ds hu hd
    rw [List.map_cons, List.nodup_cons] at hnames
    obtain ⟨m1, hm1, hrest⟩ := ih _ (fun q hq => hget q (List.mem_cons_of_mem _ hq))
      (fun q hq => hcont q (List.mem_cons_of_mem _ hq)) hnames.2
    refine ⟨m1, by simp only [collectLoop, hstep]; exact hm1, ?_⟩
    intro pod hpod c0 cs hc
    rcases List.mem_cons.1 hpod with hp | hp
    · subst hp
      rw [hd] at hc
      injection hc with h0 _
      subst h0
      have hother : ∀ q ∈ rest, q.Name ≠ pod.Name := by
        intro q hq hqn
        exact hnames.1 (hqn ▸ List.mem_map_of_mem Pod.Name hq)
      constructor
      · intro hz
        refine ⟨percentage rnd (totalUsage usage).1 0, ?_, percentage_zero_limit rnd _⟩
        rw [collectLoop_frame rnd client _ rest _ m1 ?_ hm1,
          mapGet_mapSet_ne _ _ _ _ (append_cpu_ne_append_memory _ _).symm, hz,
          mapGet_mapSet_self]
        intro q hq
        exact ⟨fun h => hother q hq (append_right_cancel h),
          (append_cpu_ne_append_memory _ _).symm⟩
      · intro hz
        refine ⟨percentage rnd (totalUsage usage).2 0, ?_, percentage_zero_limit rnd _⟩
        rw [collectLoop_frame rnd client _ rest _ m1 ?_ hm1, hz, mapGet_mapSet_self]
        intro q hq
        exact ⟨append_cpu_ne_append_memory _ _,
          fun h => hother q hq (append_right_cancel h)⟩
    · exact hrest pod hp c0 cs hc

/-- C6 (counterexample): for a pod with no CPU limit whose usage is read, `collectMetrics`
returns no error but a map that stores `+Inf` as the CPU ratio; the iteration of `Run`
goes on to compute a decision and invokes `scalePods` with the target 2. -/
theorem C6_missing_limit_is_not_an_error :
    collectMetrics F64.exact (.ok steadyClient) [noCPULimitPod]
        = .ok [("p_cpu", .pinf), ("p_memory", .fin 50)] ∧
      (loopBody F64.exact "app=web" "default" noCPULimitTick webCluster).1 =
        [.listPods "default" "app=web", .println, .collectMetrics, .makeScalingDecision,
         .scalePods 2, .printf "Successfully scaled pods with decision: 2", .sleep 60] := by
  decide!

/-- C6 (amended): when the metrics client is created, every usage read succeeds and
every pod (of distinct names) has a container, `collectMetrics` returns a metrics map and
no error whatever the declared limits; for a pod whose CPU (memory) limit reads as 0 the
value stored under `<name>_cpu` (`<name>_memory`) is not finite: it is NaN or an infinity. -/
theorem C6_missing_limit_stores_non_finite_ratio (rnd : ℚ → F64) (client : MetricsClient)
    (pods : List Pod)
    (hget : ∀ pod ∈ pods, ∃ usage, client.get pod.Name = .ok usage)
    (hcont : ∀ pod ∈ pods, pod.Containers ≠ [])
    (hnames : (pods.map Pod.Name).Nodup) :
    ∃ metrics, collectMetrics rnd (.ok client) pods = .ok metrics ∧
      ∀ pod ∈ pods, ∀ c0 cs, pod.Containers = c0 :: cs →
        (c0.cpuLimit = 0 →
          ∃ v, mapGet metrics (pod.Name ++ "_cpu") = some v ∧ v.isFinite = false) ∧
        (c0.memoryLimit = 0 →
          ∃ v, mapGet metrics (pod.Name ++ "_memory") = some v ∧ v.isFinite = false) := by
  simpa [collectMetrics] using collectLoop_stores rnd client pods [] hget hcont hnames

/-- C6 (witness): the pod with no CPU limit, read through the steady metrics service. -/
theorem C6_missing_limit_stores_non_finite_ratio_witness :
    (∀ pod ∈ [noCPULimitPod], ∃ usage, steadyClient.get pod.Name = .ok usage) ∧
      (∀ pod ∈ [noCPULimitPod], pod.Containers ≠ []) ∧
      ([noCPULimitPod].map Pod.Name).Nodup ∧
      ∃ metrics, collectMetrics F64.exact (.ok steadyClient) [noCPULimitPod] = .ok metrics ∧
        ∀ pod ∈ [noCPULimitPod], ∀ c0 cs, pod.Containers = c0 :: cs →
          (c0.cpuLimit = 0 →
            ∃ v, mapGet metrics (pod.Name ++ "_cpu") = some v ∧ v.isFinite = false) ∧
          (c0.memoryLimit = 0 →
            ∃ v, mapGet metrics (pod.Name ++ "_memory") = some v ∧ v.isFinite = false) :=
  ⟨fun _ _ => ⟨_, rfl⟩, by decide, by decide,
    C6_missing_limit_stores_non_finite_ratio F64.exact steadyClient [noCPULimitPod]
      (fun _ _ => ⟨_, rfl⟩) (by decide) (by decide)⟩

/-! ## The reconciliation loop -/

/-- C8 (the code at the failing input): three iterations of `Run` that fail in turn at
listing the pods, at reading the usage and at the decision.  Each one logs and starts the
next one at once: the trace holds no `sleep`, so sampling restarts without the wait of
60 seconds. -/
theorem C8_failed_ticks_restart_without_waiting :
    (Run F64.exact none none "app=web" "default" [listFailsTick, readFailsTick, noPodsTick]
        webCluster).1 =
      [.listPods "default" "app=web", .println, .printf "Error listing pods: connection refused",
       .listPods "default" "app=web", .println, .collectMetrics,
       .printf
         "Error collecting metrics: error getting pod metrics for p: metrics not available",
       .listPods "default" "app=web", .println, .collectMetrics, .makeScalingDecision,
       .printf "Error making scaling decision: no metrics data available"] ∧
    waitsBetweenTicks 60 true
      (Run F64.exact none none "app=web" "default" [listFailsTick, readFailsTick, noPodsTick]
        webCluster).1 = false := by
  decide!

/-! ## The workload scaler -/

theorem toInt32_eq (n : Int) (hlo : -2 ^ 31 ≤ n) (hhi : n < 2 ^ 31) : toInt32 n = n := by
  unfold toInt32
  norm_num at hlo hhi ⊢
  omega

/-- A sequence of stores of updated objects, each keeping its key, rewrites every stored
object whose key is that of one of them. -/
theorem foldl_store (upd : Workload → Workload) (hkey : ∀ w, (upd w).key = w.key) :
    ∀ (ds acc : List Workload), (ds.map Workload.key).Nodup →
      ds.foldl (fun acc d => store (upd d) acc) acc =
        acc.map (fun o =>
          match ds.find? (fun d => decide (d.key = o.key)) with
          | some d => upd d
          | none => o) := by
  intro ds
  induction ds with
  | nil => intro acc _; simp
  | cons d rest ih =>
    intro acc hnd
    rw [List.map_cons, List.nodup_cons] at hnd
    rw [List.foldl_cons, ih _ hnd.2, store, List.map_map]
    apply List.map_congr_left
    intro o _
    have hnone : rest.find? (fun d1 => decide (d1.key = d.key)) = none := by
      rw [List.find?_eq_none]
      intro x hx hxk
      have hxk1 : x.key = d.key := by simpa using hxk
      exact hnd.1 (hxk1 ▸ List.mem_map_of_mem Workload.key hx)
    by_cases hk : o.key = d.key
    · simp [hkey, hk, hnone]
    · have hk2 : ¬ d.key = o.key := fun h => hk h.symm
      simp [hkey, hk, hk2]

theorem find_filter_key (sel : Workload → Bool) :
    ∀ (ws : List Workload), (ws.map Workload.key).Nodup → ∀ o ∈ ws,
      (ws.filter sel).find? (fun d => decide (d.key = o.key)) =
        if sel o = true then some o else none := by
  intro ws
  induction ws with
  | nil => intro _ o ho; exact absurd ho (List.not_mem_nil _)
  | cons w rest ih =>
    intro hnd o ho
    rw [List.map_cons, List.nodup_cons] at hnd
    rcases List.mem_cons.1 ho with h | h
    · subst h
      by_cases hs : sel o = true
      · simp [List.filter_cons, hs]
      · have hnone : (rest.filter sel).find? (fun d => decide (d.key = o.key)) = none := by
          rw [List.find?_eq_none]
          intro x hx hxk
          have hx1 : x ∈ rest := (List.mem_filter.1 hx).1
          have hxk1 : x.key = o.key := by simpa using hxk
          exact hnd.1 (hxk1 ▸ List.mem_map_of_mem Workload.key hx1)
        simp [List.filter_cons, hs, hnone]
    · have hne : ¬ w.key = o.key := by
        intro hk
        exact hnd.1 (hk ▸ List.mem_map_of_mem Workload.key h)
      by_cases hs : sel w = true
      · simp [List.filter_cons, hs, hne, ih hnd.2 o h]
      · simp [List.filter_cons, hs, ih hnd.2 o h]

/-- Storing the update of every selected object rewrites exactly the selected objects. -/
theorem foldl_store_filter (sel : Workload → Bool) (upd : Workload → Workload)
    (hkey : ∀ w, (upd w).key = w.key) (ws : List Workload)
    (hnd : (ws.map Workload.key).Nodup) :
    (ws.filter sel).foldl (fun acc d => store (upd d) acc) ws =
      ws.map (fun w => if sel w = true then upd w else w) := by
  have hsub : ((ws.filter sel).map Workload.key).Nodup :=
    hnd.sublist (List.Sublist.map _ (List.filter_sublist _))
  rw [foldl_store upd hkey _ _ hsub]
  apply List.map_congr_left
  intro o ho
  rw [find_filter_key sel ws hnd o ho]
  by_cases hs : sel o = true <;> simp [hs]

theorem scaleDeployments_ok (api : Api) (ns : String) (n : Int)
    (hud : ∀ c w, api.updateDeploymentErr c w = none) :
    ∀ (ds : List Workload) (c : Cluster), (∀ d ∈ ds, d.Namespace = ns) →
      scaleDeployments api ns n c ds =
        (none, { c with
          deployments :=
            ds.foldl (fun acc d => store { d with Replicas := toInt32 n } acc) c.deployments,
          calls := c.calls ++ ds.map (fun d => Call.updateDeployment ns d.Name (toInt32 n)) }) := by
  intro ds
  induction ds with
  | nil => intro c _; simp [scaleDeployments]
  | cons d rest ih =>
    intro c hns
    have hd : d.Namespace = ns := hns d (List.mem_cons_self _ _)
    simp only [scaleDeployments, updateDeployment, hd, ne_eq, not_true_eq_false, if_false, hud]
    rw [ih _ (fun x hx => hns x (List.mem_cons_of_mem _ hx))]
    simp [hd]

theorem scaleReplicaSets_ok (api : Api) (ns : String) (n : Int)
    (hur : ∀ c w, api.updateReplicaSetErr c w = none) :
    ∀ (rs : List Workload) (c : Cluster), (∀ r ∈ rs, r.Namespace = ns) →
      scaleReplicaSets api ns n c rs =
        (none, { c with
          replicaSets :=
            rs.foldl (fun acc r => store { r with Replicas := toInt32 n } acc) c.replicaSets,
          calls := c.calls ++ rs.map (fun r => Call.updateReplicaSet ns r.Name (toInt32 n)) }) := by
  intro rs
  induction rs with
  | nil => intro c _; simp [scaleReplicaSets]
  | cons r rest ih =>
    intro c hns
    have hr : r.Namespace = ns := hns r (List.mem_cons_self _ _)
    simp only [scaleReplicaSets, updateReplicaSet, hr, ne_eq, not_true_eq_false, if_false, hur]
    rw [ih _ (fun x hx => hns x (List.mem_cons_of_mem _ hx))]
    simp [hr]

theorem selected_namespace (api : Api) (ns sel : String) (ws : List Workload) :
    ∀ w ∈ ws.filter (selected api ns sel), w.Namespace = ns := by
  intro w hw
  have := (List.mem_filter.1 hw).2
  simp [selected] at this
  exact this.1

/-- The registry after a `scalePods` in which no request fails. -/
theorem scalePods_ok (api : Api) (c : Cluster) (ns labelSelector : String) (n : Int)
    (hld : ∀ c, api.listDeploymentsErr c = none)
    (hud : ∀ c w, api.updateDeploymentErr c w = none)
    (hlr : ∀ c, api.listReplicaSetsErr c = none)
    (hur : ∀ c w, api.updateReplicaSetErr c w = none)
    (hd : (c.deployments.map Workload.key).Nodup)
    (hr : (c.replicaSets.map Workload.key).Nodup) :
    scalePods api c ns labelSelector n =
      (none,
        { deployments := c.deployments.map (fun w =>
            if selected api ns labelSelector w = true then { w with Replicas := toInt32 n } else w),
          replicaSets := c.replicaSets.map (fun w =>
            if selected api ns labelSelector w = true then { w with Replicas := toInt32 n } else w),
          calls := c.calls ++ [Call.listDeployments ns labelSelector]
            ++ (c.deployments.filter (selected api ns labelSelector)).map
                (fun w => Call.updateDeployment ns w.Name (toInt32 n))
            ++ [Call.listReplicaSets ns labelSelector]
            ++ (c.replicaSets.filter (selected api ns labelSelector)).map
                (fun w => Call.updateReplicaSet ns w.Name (toInt32 n)) }) := by
  have hkey : ∀ w : Workload, ({ w with Replicas := toInt32 n } : Workload).key = w.key :=
    fun _ => rfl
  simp only [scalePods, listDeployments, hld, listReplicaSets, hlr]
  rw [scaleDeployments_ok api ns n hud _ _ (selected_namespace api ns labelSelector _)]
  simp only []
  rw [scaleReplicaSets_ok api ns n hur _ _ (selected_namespace api ns labelSelector _)]
  simp only []
  rw [foldl_store_filter _ _ hkey _ hd, foldl_store_filter _ _ hkey _ hr]

/-- C7 (counterexample): with the decision `2^32` and no failing request, `scalePods`
returns nil and the selected Deployment and ReplicaSet end with replica count
`int32(2^32) = 0`, not `2^32`. -/
theorem C7_replicas_are_truncated_to_int32 :
    scalePods quietApi webCluster "default" "app=web" 4294967296 =
      (none,
        { deployments :=
            [⟨"default", "web", [("app", "web")], 0⟩, ⟨"default", "db", [("app", "db")], 1⟩],
          replicaSets :=
            [⟨"default", "web-7d4", [("app", "web")], 0⟩,
             ⟨"default", "db-9c1", [("app", "db")], 1⟩],
          calls :=
            [.listDeployments "default" "app=web", .updateDeployment "default" "web" 0,
             .listReplicaSets "default" "app=web", .updateReplicaSet "default" "web-7d4" 0] }) := by
  decide!

/-- C7 (amended): for every `n` in the range of `int32`, every namespace and selector, in a
registry whose objects of a kind have distinct (namespace, name), if no list and no update
request fails then `scalePods` returns nil, every Deployment and every ReplicaSet of the
namespace that the selector selects has replica count `n` afterwards, every other
workload is unchanged, and the requests issued are the two lists and one update per
selected workload; when no workload is selected the registry is unchanged and no update
is issued. -/
theorem C7_scalePods_sets_selected_replicas (api : Api) (c : Cluster)
    (ns labelSelector : String) (n : Int)
    (hld : ∀ c, api.listDeploymentsErr c = none)
    (hud : ∀ c w, api.updateDeploymentErr c w = none)
    (hlr : ∀ c, api.listReplicaSetsErr c = none)
    (hur : ∀ c w, api.updateReplicaSetErr c w = none)
    (hd : (c.deployments.map Workload.key).Nodup)
    (hr : (c.replicaSets.map Workload.key).Nodup)
    (hlo : -2 ^ 31 ≤ n) (hhi : n < 2 ^ 31) :
    scalePods api c ns labelSelector n =
        (none,
          { deployments := c.deployments.map (fun w =>
              if selected api ns labelSelector w = true then { w with Replicas := n } else w),
            replicaSets := c.replicaSets.map (fun w =>
              if selected api ns labelSelector w = true then { w with Replicas := n } else w),
            calls := c.calls ++ [Call.listDeployments ns labelSelector]
              ++ (c.deployments.filter (selected api ns labelSelector)).map
                  (fun w => Call.updateDeployment ns w.Name n)
              ++ [Call.listReplicaSets ns labelSelector]
              ++ (c.replicaSets.filter (selected api ns labelSelector)).map
                  (fun w => Call.updateReplicaSet ns w.Name n) }) ∧
      (c.deployments.filter (selected api ns labelSelector) = [] →
        c.replicaSets.filter (selected api ns labelSelector) = [] →
        scalePods api c ns labelSelector n =
          (none, { c with calls := c.calls ++
            [Call.listDeployments ns labelSelector, Call.listReplicaSets ns labelSelector] })) := by
  have hmain := scalePods_ok api c ns labelSelector n hld hud hlr hur hd hr
  rw [toInt32_eq n hlo hhi] at hmain
  refine ⟨hmain, fun hfd hfr => ?_⟩
  rw [hmain, hfd, hfr]
  have hid : ∀ ws : List Workload, ws.filter (selected api ns labelSelector) = [] →
      ws.map (fun w =>
        if selected api ns labelSelector w = true then { w with Replicas := n } else w) = ws := by
    intro ws hws
    rw [List.filter_eq_nil_iff] at hws
    calc ws.map (fun w =>
          if selected api ns labelSelector w = true then { w with Replicas := n } else w)
        = ws.map id := List.map_congr_left (fun w hw => by simp [hws w hw])
      _ = ws := List.map_id ws
  rw [hid _ hfd, hid _ hfr]
  simp

/-- C7 (witness): the target 3 applied to the workloads labelled `app=web`. -/
theorem C7_scalePods_sets_selected_replicas_witness :
    (webCluster.deployments.map Workload.key).Nodup ∧
      (webCluster.replicaSets.map Workload.key).Nodup ∧
      (-2 ^ 31 ≤ (3 : Int)) ∧ ((3 : Int) < 2 ^ 31) ∧
      scalePods quietApi webCluster "default" "app=web" 3 =
        (none,
          { deployments := webCluster.deployments.map (fun w =>
              if selected quietApi "default" "app=web" w = true then { w with Replicas := 3 }
              else w),
            replicaSets := webCluster.replicaSets.map (fun w =>
              if selected quietApi "default" "app=web" w = true then { w with Replicas := 3 }
              else w),
            calls := webCluster.calls ++ [Call.listDeployments "default" "app=web"]
              ++ (webCluster.deployments.filter (selected quietApi "default" "app=web")).map
                  (fun w => Call.updateDeployment "default" w.Name 3)
              ++ [Call.listReplicaSets "default" "app=web"]
              ++ (webCluster.replicaSets.filter (selected quietApi "default" "app=web")).map
                  (fun w => Call.updateReplicaSet "default" w.Name 3) }) :=
  ⟨by decide, by decide, by decide, by decide,
    (C7_scalePods_sets_selected_replicas quietApi webCluster "default" "app=web" 3
      (fun _ => rfl) (fun _ _ => rfl) (fun _ => rfl) (fun _ _ => rfl)
      (by decide) (by decide) (by decide) (by decide)).1⟩

end K8sUsageScaler
